import Mathlib

/-!
Shallow embedding of the Q-learning experiment repository:
`src/q_learning_framework.py` (tabular Q-learning policy) and
`src/learning_environment.py` (round orchestrator and simulation controller).

Python floats are modelled as exact rationals (`ℚ`); Python dicts keyed by
`(state, action)` pairs are modelled as association lists with unique keys;
the random draws made by `random.uniform`, `random.choice` are modelled by
explicit oracle inputs (a sampled value in `[0,1]` and arbitrary indices into
the lists being chosen from, reduced modulo their length), so that every
possible behaviour of the program corresponds to some oracle.

The teacher agent (`src/agents/teacher_agent.py` is not part of the sources;
only its call sites are) and the student agent's LLM-backed methods are the
spec's "external collaborators": they are modelled as opaque string-valued
functions supplied as parameters, exactly as the environment code consumes
them.
-/

/-- Python `a.isPrefixOf`-style check on character lists:
`needlePref n h = true` iff `n` is a prefix of `h`. -/
def needlePref : List Char → List Char → Bool
  | [], _ => true
  | _ :: _, [] => false
  | a :: as, b :: bs => a == b && needlePref as bs

/-- Python's substring operator `needle in hay` on character lists. -/
def containsSub (needle : List Char) : List Char → Bool
  | [] => needlePref needle []
  | b :: rest => needlePref needle (b :: rest) || containsSub needle rest

/-- Python's `needle in hay` on strings. -/
def pyContains (needle hay : String) : Bool :=
  containsSub needle.data hay.data

/-- Python's `str.lower()` (on the ASCII fragment the program's keywords use). -/
def pyLower (s : String) : String :=
  ⟨s.data.map Char.toLower⟩

/-- Python's `max` over a list, with `max [] = 0` standing for the guard
`if q_values_for_next_state:` that leaves the default `0.0` in place when the
list is empty (Python's `max` itself is only called on non-empty lists). -/
def pymax : List ℚ → ℚ
  | [] => 0
  | x :: xs => xs.foldl max x

/-- Python's `min` over a list (only applied to non-empty lists by the code;
`0` default for totality). -/
def pymin : List ℚ → ℚ
  | [] => 0
  | x :: xs => xs.foldl min x

/-- The Q-table of `QLearningFramework`: the dict
`{(state, action): q_value}` as an association list with unique keys. -/
abbrev QTable := List ((String × String) × ℚ)

/-- Python `dict.get(key, 0.0)`: first-match lookup, default `0.0`. -/
def lookupQ : QTable → (String × String) → ℚ
  | [], _ => 0
  | p :: rest, k => if p.1 = k then p.2 else lookupQ rest k

/-- Python dict assignment `d[key] = v`: replace the entry if the key is
present, otherwise add it. -/
def dictSet : QTable → (String × String) → ℚ → QTable
  | [], k, v => [(k, v)]
  | p :: rest, k, v => if p.1 = k then (k, v) :: rest else p :: dictSet rest k v

/-- `QLearningFramework._get_q_value`: the stored value of `(state, action)`,
`0.0` when the pair was never visited. -/
def get_q_value (qt : QTable) (state action : String) : ℚ :=
  lookupQ qt (state, action)

/-- `QLearningFramework.update_q_value`.  `next_state : Option String` models
the Python parameter that may be `None`; the truthiness test `if next_state:`
holds exactly for `some s` with `s ≠ ""`.  `pymax [] = 0` mirrors the
code's `if q_values_for_next_state:` guard on an empty action list. -/
def update_q_value (qt : QTable) (actions : List String) (alpha gamma : ℚ)
    (state action : String) (reward : ℚ) (next_state : Option String) : QTable :=
  let current_q := get_q_value qt state action
  let max_next_q : ℚ :=
    match next_state with
    | some ns => if ns ≠ "" then pymax (actions.map (fun a => get_q_value qt ns a)) else 0
    | none => 0
  let new_q := current_q + alpha * (reward + gamma * max_next_q - current_q)
  dictSet qt (state, action) new_q

/-- `QLearningFramework.choose_action`, with the random draws made explicit:
`u` is the `random.uniform(0, 1)` sample; `exploreIdx` and `tieIdx` are
oracle indices standing for `random.choice` over the action list and over the
tied best actions (reduced modulo the list length, so every choice the code
can make is realized by some oracle value). The Python dict comprehension
de-duplicates repeated actions, which changes only the multiplicity seen by
`random.choice`, never the set of candidates, so the filter ranges over
`actions` directly. -/
def choose_action (qt : QTable) (actions : List String) (epsilon : ℚ)
    (u : ℚ) (exploreIdx tieIdx : ℕ) (state : String) : String :=
  if u < epsilon then
    actions.getD (exploreIdx % actions.length) ""
  else
    let max_q := pymax (actions.map (fun a => get_q_value qt state a))
    let best_actions := actions.filter (fun a => decide (get_q_value qt state a = max_q))
    best_actions.getD (tieIdx % best_actions.length) ""

/-- `LearningEnvironment._get_reward_from_feedback`: keyword heuristics over
the lowercased feedback text. -/
def get_reward_from_feedback (feedback : String) : ℚ :=
  let feedback_lower := pyLower feedback
  let reward : ℚ := 0
  let reward := if pyContains "correct" feedback_lower
                    && !(pyContains "incorrect" feedback_lower)
                then reward + 1 else reward
  let reward := if pyContains "incorrect" feedback_lower then reward - 1 else reward
  let reward := if pyContains "strengths" feedback_lower then reward + 1/2 else reward
  let reward := if pyContains "improvement" feedback_lower then reward - 1/2 else reward
  reward

/-- The error-marker test the environment applies to every collaborator
text: Python's case-sensitive `"Error" in text`. -/
def hasError (t : String) : Bool :=
  pyContains "Error" t

/-- The external collaborators of the environment, as opaque string-valued
functions: the teacher's `generate_learning_material`,
`evaluate_student_response` and `synthesize_new_topic`, and the student's
`solve_problem`.  (`synthesize_new_topic` receives the performance-summary
text the controller builds from the reward window; since that text is opaque
to the core, the model hands `synthesize` the window itself.)
`process_feedback`, `reflect_on_feedback` and `evolve` return nothing the
core consumes, so they appear only as recorded invocations. -/
structure Collaborators where
  generate : String → String → String
  solve : String → String
  evaluate : String → String → String
  synthesize : String → List ℚ → String

/-- One round record of `run_interaction_round` (the `round_data` dict). -/
structure RoundData where
  round_number : ℕ
  topic : String
  difficulty : String
  problem : String
  student_action : String
  student_response : String
  teacher_feedback : String
  reward : ℚ
  deriving DecidableEq

/-- The mutable state of `LearningEnvironment` touched by a round: the
student's Q-table and the `simulation_results` list. -/
structure EnvState where
  qtable : QTable
  results : List RoundData
  deriving DecidableEq

/-- Output of one `run_interaction_round` call: the updated environment
state, the returned round record (`none` for the empty dict `{}` returned on
a collaborator error), and the trace of arguments passed to the student's
`solve_problem`. -/
structure RoundResult where
  st : EnvState
  record : Option RoundData
  solveCalls : List String
  deriving DecidableEq

/-- Per-round random draws consumed by `choose_action`: the
`random.uniform(0,1)` sample and the two `random.choice` oracles. -/
structure RoundRand where
  u : ℚ
  exploreIdx : ℕ
  tieIdx : ℕ

/-- `LearningEnvironment.run_interaction_round`: teacher poses a problem,
the policy picks an action, the student answers, the teacher evaluates, the
reward is extracted and the Q-table updated; any collaborator text carrying
the error marker aborts the round with an empty result. -/
def run_interaction_round (C : Collaborators) (actions : List String)
    (alpha gamma epsilon : ℚ) (rnd : RoundRand) (st : EnvState)
    (topic difficulty : String) (round_number : ℕ) : RoundResult :=
  let problem := C.generate topic difficulty
  if hasError problem then ⟨st, none, []⟩
  else
    let student_conceptual_action :=
      choose_action st.qtable actions epsilon rnd.u rnd.exploreIdx rnd.tieIdx topic
    let student_response := C.solve problem
    if hasError student_response then ⟨st, none, [problem]⟩
    else
      let teacher_feedback := C.evaluate problem student_response
      if hasError teacher_feedback then ⟨st, none, [problem]⟩
      else
        let reward := get_reward_from_feedback teacher_feedback
        let qt := update_q_value st.qtable actions alpha gamma topic
          student_conceptual_action reward (some topic)
        let round_data : RoundData :=
          ⟨round_number, topic, difficulty, problem, student_conceptual_action,
            student_response, teacher_feedback, reward⟩
        ⟨⟨qt, st.results ++ [round_data]⟩, some round_data, [problem]⟩

/-- Configuration of `run_simulation` together with the fixed policy
hyperparameters. -/
structure SimConfig where
  actions : List String
  alpha : ℚ
  gamma : ℚ
  epsilon : ℚ
  num_rounds : ℕ
  evolution_interval : ℕ

/-- Oracle streams for the random draws of round `i`: the `choose_action`
draws and the `random.choice(topics)` index. -/
structure RandomSource where
  rnd : ℕ → RoundRand
  topicIdx : ℕ → ℕ

/-- The state threaded through the `run_simulation` loop, with the `evolve`
and `synthesize_new_topic` invocations recorded as traces. -/
structure SimState where
  qtable : QTable
  results : List RoundData
  topics : List String
  rewardsHistory : List ℚ
  teacherEvolveCalls : List ℚ
  studentEvolveCalls : List ℚ
  synthAttempts : List ℕ

/-- Curriculum-growth phase of round `i` of `run_simulation`: when `i > 0`
and `i % (evolution_interval // 2) == 0`, ask the teacher for a new topic
(recorded in `synthAttempts`) and append it when it is truthy (non-empty),
carries no error marker, and is not already present. -/
def growthPhase (C : Collaborators) (cfg : SimConfig) (i : ℕ)
    (st : SimState) : SimState :=
  if 0 < i ∧ i % (cfg.evolution_interval / 2) = 0 then
    let new_topic := C.synthesize (st.topics.getLastD "general knowledge") st.rewardsHistory
    { st with
      synthAttempts := st.synthAttempts ++ [i]
      topics :=
        if new_topic ≠ "" ∧ ¬hasError new_topic ∧ new_topic ∉ st.topics then
          st.topics ++ [new_topic]
        else st.topics }
  else st

/-- Appending the round's reward to the history window: `run_simulation`
does so exactly when the round returned a non-empty record. -/
def appendReward (history : List ℚ) : Option RoundData → List ℚ
  | some rd => history ++ [rd.reward]
  | none => history

/-- Round phase of round `i` of `run_simulation`: pick the topic uniformly
at random from the current curriculum, run one interaction round, and append
its reward to the window when it completed. -/
def roundPhase (C : Collaborators) (cfg : SimConfig) (R : RandomSource)
    (i : ℕ) (st : SimState) : SimState :=
  let current_topic := st.topics.getD (R.topicIdx i % st.topics.length) ""
  let rr := run_interaction_round C cfg.actions cfg.alpha cfg.gamma cfg.epsilon
    (R.rnd i) ⟨st.qtable, st.results⟩ current_topic "medium" (i + 1)
  { st with
    qtable := rr.st.qtable
    results := rr.st.results
    rewardsHistory := appendReward st.rewardsHistory rr.record }

/-- Mean of the reward window, `sum(rewards_history)/len(rewards_history)`. -/
def listMean (l : List ℚ) : ℚ :=
  l.sum / l.length

/-- Evolution phase of round `i` of `run_simulation`: when
`(i+1) % evolution_interval == 0` and the window is non-empty, invoke
`evolve` with the window mean on the teacher and then the student, and reset
the window. -/
def evolvePhase (cfg : SimConfig) (i : ℕ) (st : SimState) : SimState :=
  if (i + 1) % cfg.evolution_interval = 0 ∧ st.rewardsHistory ≠ [] then
    let avg_reward := listMean st.rewardsHistory
    { st with
      teacherEvolveCalls := st.teacherEvolveCalls ++ [avg_reward]
      studentEvolveCalls := st.studentEvolveCalls ++ [avg_reward]
      rewardsHistory := [] }
  else st

/-- The body of the `for i in range(num_rounds)` loop of `run_simulation`. -/
def simStep (C : Collaborators) (cfg : SimConfig) (R : RandomSource)
    (st : SimState) (i : ℕ) : SimState :=
  evolvePhase cfg i (roundPhase C cfg R i (growthPhase C cfg i st))

/-- The initial simulation state over the given mutable topics list. -/
def initSimState (topics : List String) : SimState :=
  ⟨[], [], topics, [], [], [], []⟩

/-- `LearningEnvironment.run_simulation` over a fresh environment. -/
def run_simulation (C : Collaborators) (cfg : SimConfig) (R : RandomSource)
    (topics : List String) : SimState :=
  (List.range cfg.num_rounds).foldl (simStep C cfg R) (initSimState topics)

/-- The summary dict returned by `get_summary_statistics`. -/
structure Summary where
  totalRounds : ℕ
  averageReward : ℚ
  minReward : ℚ
  maxReward : ℚ
  uniqueTopicsCovered : List String
  deriving DecidableEq

/-- `LearningEnvironment.get_summary_statistics` over the recorded
simulation results (`list(set(...))` is modelled as `dedup`). -/
def get_summary_statistics (results : List RoundData) : Summary :=
  if results = [] then ⟨0, 0, 0, 0, []⟩
  else
    let rewards := results.map (fun r => r.reward)
    let topics_covered := results.map (fun r => r.topic)
    ⟨results.length, rewards.sum / results.length, pymin rewards, pymax rewards,
      topics_covered.dedup⟩

/-! ## Claim theorems -/

/-- A collaborator whose four calls always return fixed, error-free texts
(and an empty synthesized topic), used for concrete end-to-end runs. -/
def okCollab : Collaborators :=
  ⟨fun _ _ => "problem", fun _ => "solution", fun _ _ => "Correct", fun _ _ => ""⟩

/-- The all-zero random source: `u = 0` each round and index draws `0`. -/
def zeroRand : RandomSource :=
  ⟨fun _ => ⟨0, 0, 0⟩, fun _ => 0⟩

/-- A concrete configuration: one action, `alpha = 1`, `gamma = 0`,
`epsilon = 1`, `num_rounds = 4`, `evolution_interval = 2`. -/
def cfg4 : SimConfig :=
  ⟨["a"], 1, 0, 1, 4, 2⟩

/-! ## Theorems -/

theorem lookupQ_dictSet_self (qt : QTable) (k : String × String) (v : ℚ) :
    lookupQ (dictSet qt k v) k = v := by
  induction qt with
  | nil => simp [dictSet, lookupQ]
  | cons p rest ih =>
    by_cases h : p.1 = k
    · simp [dictSet, h, lookupQ]
    · simp [dictSet, h, lookupQ, ih]

theorem lookupQ_dictSet_ne (qt : QTable) (k k' : String × String) (v : ℚ)
    (h : k' ≠ k) : lookupQ (dictSet qt k v) k' = lookupQ qt k' := by
  induction qt with
  | nil => simp [dictSet, lookupQ, (Ne.symm h : ¬ k = k')]
  | cons p rest ih =>
    by_cases hp : p.1 = k
    · simp [dictSet, lookupQ, hp, (Ne.symm h : ¬ k = k')]
    · by_cases hp' : p.1 = k'
      · simp [dictSet, lookupQ, hp, hp', (h : ¬ k' = k)]
      · simp [dictSet, lookupQ, hp, hp', ih]

theorem foldl_max_mem (xs : List ℚ) (x : ℚ) : xs.foldl max x ∈ x :: xs := by
  induction xs generalizing x with
  | nil => simp [List.foldl]
  | cons y ys ih =>
    have hfold : (y :: ys).foldl max x = ys.foldl max (max x y) := by
      simp [List.foldl_cons]
    have h := ih (max x y)
    rcases List.mem_cons.1 h with h | h
    · rcases max_choice x y with hm | hm
      · rw [hfold, h, hm]; exact List.mem_cons_self _ _
      · rw [hfold, h, hm]
        exact List.mem_cons_of_mem _ (List.mem_cons_self _ _)
    · rw [hfold]
      exact List.mem_cons_of_mem _ (List.mem_cons_of_mem _ h)

theorem le_foldl_max (xs : List ℚ) (x : ℚ) :
    ∀ y ∈ x :: xs, y ≤ xs.foldl max x := by
  induction xs generalizing x with
  | nil => intro y hy; simp at hy; simp [List.foldl, hy]
  | cons z zs ih =>
    intro y hy
    rcases List.mem_cons.1 hy with h | h
    · subst h
      exact le_trans (le_max_left y z) (ih (max y z) _ (List.mem_cons_self _ _))
    · rcases List.mem_cons.1 h with h | h
      · subst h
        exact le_trans (le_max_right x y) (ih (max x y) _ (List.mem_cons_self _ _))
      · exact ih (max x z) y (List.mem_cons_of_mem _ h)

theorem pymax_mem {l : List ℚ} (h : l ≠ []) : pymax l ∈ l := by
  cases l with
  | nil => exact absurd rfl h
  | cons x xs => exact foldl_max_mem xs x

theorem le_pymax {l : List ℚ} {y : ℚ} (h : y ∈ l) : y ≤ pymax l := by
  cases l with
  | nil => simp at h
  | cons x xs => exact le_foldl_max xs x y h

theorem foldl_min_mem (xs : List ℚ) (x : ℚ) : xs.foldl min x ∈ x :: xs := by
  induction xs generalizing x with
  | nil => simp [List.foldl]
  | cons y ys ih =>
    have hfold : (y :: ys).foldl min x = ys.foldl min (min x y) := by
      simp [List.foldl_cons]
    have h := ih (min x y)
    rcases List.mem_cons.1 h with h | h
    · rcases min_choice x y with hm | hm
      · rw [hfold, h, hm]; exact List.mem_cons_self _ _
      · rw [hfold, h, hm]
        exact List.mem_cons_of_mem _ (List.mem_cons_self _ _)
    · rw [hfold]
      exact List.mem_cons_of_mem _ (List.mem_cons_of_mem _ h)

theorem foldl_min_le (xs : List ℚ) (x : ℚ) :
    ∀ y ∈ x :: xs, xs.foldl min x ≤ y := by
  induction xs generalizing x with
  | nil => intro y hy; simp at hy; simp [List.foldl, hy]
  | cons z zs ih =>
    intro y hy
    rcases List.mem_cons.1 hy with h | h
    · subst h
      exact le_trans (ih (min y z) _ (List.mem_cons_self _ _)) (min_le_left y z)
    · rcases List.mem_cons.1 h with h | h
      · subst h
        exact le_trans (ih (min x y) _ (List.mem_cons_self _ _)) (min_le_right x y)
      · exact ih (min x z) y (List.mem_cons_of_mem _ h)

theorem pymin_mem {l : List ℚ} (h : l ≠ []) : pymin l ∈ l := by
  cases l with
  | nil => exact absurd rfl h
  | cons x xs => exact foldl_min_mem xs x

theorem pymin_le {l : List ℚ} {y : ℚ} (h : y ∈ l) : pymin l ≤ y := by
  cases l with
  | nil => simp at h
  | cons x xs => exact foldl_min_le xs x y h

theorem getD_mod_mem {α : Type} {l : List α} (i : ℕ) (d : α) (h : l ≠ []) :
    l.getD (i % l.length) d ∈ l := by
  have hlen : 0 < l.length := List.length_pos.2 h
  have hlt : i % l.length < l.length := Nat.mod_lt _ hlen
  rw [List.getD_eq_getElem?_getD, List.getElem?_eq_getElem hlt]
  exact List.getElem_mem _

/-- Claim C1: `update_q_value` sets the `(state, action)` entry to
`current + alpha * (reward + gamma * maxNext - current)`, where `current` is
the stored value (default `0.0`) and `maxNext` is the maximum stored value of
`(nextState, a')` over the action set when `nextState` is truthy and `0.0`
otherwise; every other entry is left untouched.  Concretely, from an all-zero
table with `gamma = 9/10`, `alpha = 1/10`, `reward = 1` the new value is
`1/10`, and a second update of the same pair with reward `1` and a next state
whose best value is `2` yields `37/100` (the float claim `0.37` holds exactly
in the rational model). -/
theorem update_q_value_get_self (qt : QTable) (actions : List String)
    (alpha gamma : ℚ) (state action : String) (reward : ℚ)
    (next_state : Option String) :
    get_q_value (update_q_value qt actions alpha gamma state action reward next_state)
        state action
      = get_q_value qt state action
          + alpha * (reward
              + gamma * (match next_state with
                  | some ns =>
                      if ns ≠ "" then
                        pymax (actions.map (fun a => get_q_value qt ns a))
                      else 0
                  | none => 0)
              - get_q_value qt state action) := by
  simp only [update_q_value, get_q_value]
  exact lookupQ_dictSet_self _ _ _

theorem update_q_value_get_ne (qt : QTable) (actions : List String)
    (alpha gamma : ℚ) (state action : String) (reward : ℚ)
    (next_state : Option String) (s' a' : String)
    (h : (s', a') ≠ (state, action)) :
    get_q_value (update_q_value qt actions alpha gamma state action reward next_state)
        s' a'
      = get_q_value qt s' a' := by
  simp only [update_q_value, get_q_value]
  exact lookupQ_dictSet_ne _ _ _ _ h

theorem C1_update_q_value :
    (∀ (qt : QTable) (actions : List String) (alpha gamma : ℚ)
        (state action : String) (reward : ℚ) (next_state : Option String),
      get_q_value (update_q_value qt actions alpha gamma state action reward next_state)
          state action
        = get_q_value qt state action
            + alpha * (reward
                + gamma * (match next_state with
                    | some ns =>
                        if ns ≠ "" then
                          pymax (actions.map (fun a => get_q_value qt ns a))
                        else 0
                    | none => 0)
                - get_q_value qt state action)
      ∧ ∀ s' a' : String, (s', a') ≠ (state, action) →
          get_q_value (update_q_value qt actions alpha gamma state action reward next_state)
              s' a'
            = get_q_value qt s' a')
    ∧ get_q_value (update_q_value [] ["a"] (1/10) (9/10) "s" "a" 1 (some "s")) "s" "a"
        = 1/10
    ∧ get_q_value (update_q_value [(("s", "a"), 1/10), (("t", "a"), 2)] ["a"]
          (1/10) (9/10) "s" "a" 1 (some "t")) "s" "a"
        = 37/100 := by
  refine ⟨fun qt actions alpha gamma state action reward next_state =>
    ⟨update_q_value_get_self qt actions alpha gamma state action reward next_state,
     fun s' a' hne =>
       update_q_value_get_ne qt actions alpha gamma state action reward next_state s' a' hne⟩,
    ?_, ?_⟩
  · rw [update_q_value_get_self]
    simp only [get_q_value, lookupQ, pymax, List.map, List.foldl]
    norm_num
  · rw [update_q_value_get_self]
    have h1 : get_q_value [(("s", "a"), 1/10), (("t", "a"), 2)] "s" "a" = 1/10 := by
      simp [get_q_value, lookupQ]
    have h2 : get_q_value [(("s", "a"), 1/10), (("t", "a"), 2)] "t" "a" = 2 := by
      simp only [get_q_value, lookupQ]
      rw [if_neg (by decide)]
      simp
    simp only [List.map, pymax, List.foldl]
    rw [if_pos (by decide : ("t" : String) ≠ ""), h1, h2]
    norm_num

/-- Witness for C1: the general part applied at a concrete input, with the
side hypothesis `(s', a') ≠ (state, action)` discharged at
`("x", "b") ≠ ("s", "a")`: the untouched entry keeps its value `5`. -/
theorem C1_update_q_value_witness :
    get_q_value (update_q_value [(("x", "b"), 5)] ["b"] (1/2) (1/2) "s" "a" 1 none)
        "x" "b" = 5 := by
  have h := (C1_update_q_value.1 [(("x", "b"), 5)] ["b"] (1/2) (1/2) "s" "a" 1 none).2
    "x" "b" (by decide)
  rw [h]
  norm_num [get_q_value, lookupQ]

/-- Claim C2: the reward extractor is pure (it is a function of the feedback
text alone) and adds `+1` for "correct" without "incorrect", `-1` for
"incorrect", `+1/2` for "strengths", `-1/2` for "improvement"; its output is
always one of the seven values `{-3/2, -1, -1/2, 0, 1/2, 1, 3/2}`, with the
two quoted examples evaluating to `3/2` and `-3/2`. -/
theorem C2_reward_extractor :
    (∀ feedback : String,
      get_reward_from_feedback feedback ∈ [(-3/2 : ℚ), -1, -1/2, 0, 1/2, 1, 3/2])
    ∧ get_reward_from_feedback "Correct, good strengths." = 3/2
    ∧ get_reward_from_feedback "Incorrect, needs lots of improvement." = -3/2 := by
  refine ⟨fun feedback => ?_, ?_, ?_⟩
  · unfold get_reward_from_feedback
    cases h1 : pyContains "correct" (pyLower feedback) <;>
      cases h2 : pyContains "incorrect" (pyLower feedback) <;>
        cases h3 : pyContains "strengths" (pyLower feedback) <;>
          cases h4 : pyContains "improvement" (pyLower feedback) <;>
            simp only [h1, h2, h3, h4, Bool.not_true, Bool.not_false, Bool.and_true,
              Bool.and_false, Bool.true_and, Bool.false_and, if_true, if_false,
              List.mem_cons, List.not_mem_nil, or_false] <;>
            norm_num
  · have h1 : pyContains "correct" (pyLower "Correct, good strengths.") = true := by decide
    have h2 : pyContains "incorrect" (pyLower "Correct, good strengths.") = false := by decide
    have h3 : pyContains "strengths" (pyLower "Correct, good strengths.") = true := by decide
    have h4 : pyContains "improvement" (pyLower "Correct, good strengths.") = false := by
      decide
    simp only [get_reward_from_feedback, h1, h2, h3, h4]
    norm_num
  · have h1 : pyContains "correct" (pyLower "Incorrect, needs lots of improvement.")
        = true := by decide
    have h2 : pyContains "incorrect" (pyLower "Incorrect, needs lots of improvement.")
        = true := by decide
    have h3 : pyContains "strengths" (pyLower "Incorrect, needs lots of improvement.")
        = false := by decide
    have h4 : pyContains "improvement" (pyLower "Incorrect, needs lots of improvement.")
        = true := by decide
    simp only [get_reward_from_feedback, h1, h2, h3, h4]
    norm_num

/-- Claim C4: with `epsilon = 0` and a uniform sample `u ∈ [0, 1]`,
`choose_action` always takes the exploitation branch: the returned action is
a member of the action set whose value at `state` equals the maximum value
over the whole set, and when all maximizers coincide the result is that
unique action regardless of the tie-break draw.  Membership in the tied set
holds for every tie-break oracle, which is the statable content of
"uniformly random among ties" in this embedding. -/
theorem C4_choose_action_greedy :
    ∀ (qt : QTable) (actions : List String) (u : ℚ) (exploreIdx tieIdx : ℕ)
      (state : String),
      actions ≠ [] → 0 ≤ u →
      (choose_action qt actions 0 u exploreIdx tieIdx state ∈ actions
       ∧ get_q_value qt state (choose_action qt actions 0 u exploreIdx tieIdx state)
           = pymax (actions.map (fun a => get_q_value qt state a))
       ∧ ∀ a₀ ∈ actions,
           (∀ b ∈ actions,
             get_q_value qt state b = pymax (actions.map (fun a => get_q_value qt state a))
               → b = a₀) →
           choose_action qt actions 0 u exploreIdx tieIdx state = a₀) := by
  intro qt actions u exploreIdx tieIdx state hne hu
  have hnotlt : ¬ u < (0 : ℚ) := not_lt.2 hu
  simp only [choose_action, if_neg hnotlt]
  have hbestne :
      actions.filter (fun a => decide (get_q_value qt state a
          = pymax (actions.map (fun a => get_q_value qt state a)))) ≠ [] := by
    have hmapne : actions.map (fun a => get_q_value qt state a) ≠ [] := by
      intro hmap
      exact hne (List.map_eq_nil_iff.1 hmap)
    rcases List.mem_map.1 (pymax_mem hmapne) with ⟨b, hb, hbq⟩
    exact List.ne_nil_of_mem
      (List.mem_filter.2 ⟨hb, decide_eq_true hbq⟩)
  have hresmem := getD_mod_mem tieIdx "" hbestne
  rcases List.mem_filter.1 hresmem with ⟨hmemA, hval⟩
  exact ⟨hmemA, of_decide_eq_true hval,
    fun a₀ _ huniq => huniq _ hmemA (of_decide_eq_true hval)⟩

/-- Witness for C4 at a concrete input: a singleton action set, `epsilon = 0`
and `u = 0`; both hypotheses are discharged concretely and the chosen action
is a member of the action set. -/
theorem C4_choose_action_greedy_witness :
    choose_action [] ["a"] 0 0 0 0 "s" ∈ ["a"] :=
  (C4_choose_action_greedy [] ["a"] 0 0 0 "s" (List.cons_ne_nil _ _) (le_refl 0)).1

/-- Claim C3: whenever the teacher's problem text, the student's solution
text, or the teacher's evaluation text carries the error marker, the round
returns an empty result, the environment state (Q-table and results
sequence) is unchanged, and appending the round's outcome to any
reward-history window leaves the window unchanged. -/
theorem C3_round_error_short_circuit :
    ∀ (C : Collaborators) (actions : List String) (alpha gamma epsilon : ℚ)
      (rnd : RoundRand) (st : EnvState) (topic difficulty : String) (n : ℕ),
      (hasError (C.generate topic difficulty) = true
       ∨ hasError (C.solve (C.generate topic difficulty)) = true
       ∨ hasError (C.evaluate (C.generate topic difficulty)
            (C.solve (C.generate topic difficulty))) = true) →
      (run_interaction_round C actions alpha gamma epsilon rnd st topic difficulty n).record
          = none
      ∧ (run_interaction_round C actions alpha gamma epsilon rnd st topic difficulty n).st
          = st
      ∧ ∀ history : List ℚ,
          appendReward history
            (run_interaction_round C actions alpha gamma epsilon rnd st topic difficulty n).record
            = history := by
  intro C actions alpha gamma epsilon rnd st topic difficulty n h
  have key :
      (run_interaction_round C actions alpha gamma epsilon rnd st topic difficulty n).record
          = none
      ∧ (run_interaction_round C actions alpha gamma epsilon rnd st topic difficulty n).st
          = st := by
    unfold run_interaction_round
    cases h1 : hasError (C.generate topic difficulty) with
    | true => simp [h1]
    | false =>
      cases h2 : hasError (C.solve (C.generate topic difficulty)) with
      | true => simp [h1, h2]
      | false =>
        cases h3 : hasError (C.evaluate (C.generate topic difficulty)
            (C.solve (C.generate topic difficulty))) with
        | true => simp [h1, h2, h3]
        | false => rcases h with h | h | h <;> simp_all
  exact ⟨key.1, key.2, fun history => by rw [key.1]; rfl⟩

/-- Witness for C3 at a concrete input: a teacher whose problem generation
returns an error-marked text; the round yields an empty record. -/
theorem C3_round_error_short_circuit_witness :
    (run_interaction_round
        ⟨fun _ _ => "Error: generation failed", fun _ => "ok", fun _ _ => "ok",
          fun _ _ => ""⟩
        ["a"] 0 0 1 ⟨0, 0, 0⟩ ⟨[], []⟩ "T" "medium" 1).record = none :=
  (C3_round_error_short_circuit
    ⟨fun _ _ => "Error: generation failed", fun _ => "ok", fun _ _ => "ok", fun _ _ => ""⟩
    ["a"] 0 0 1 ⟨0, 0, 0⟩ ⟨[], []⟩ "T" "medium" 1 (Or.inl (by decide))).1

/-- Claim C9: the student's solving step depends only on the problem text.
Two executions of `run_interaction_round` that differ only in the random
draws feeding `choose_action` (hence possibly in the chosen action) pass the
same argument list to `solve_problem` and obtain the same student response;
the problem, feedback, reward and success/failure of the round coincide as
well, so the chosen action can influence only the Q-value update and the
recorded `student_action`. -/
theorem C9_action_noninterference :
    ∀ (C : Collaborators) (actions : List String) (alpha gamma epsilon : ℚ)
      (rnd₁ rnd₂ : RoundRand) (st : EnvState) (topic difficulty : String) (n : ℕ),
      (run_interaction_round C actions alpha gamma epsilon rnd₁ st topic difficulty n).solveCalls
        = (run_interaction_round C actions alpha gamma epsilon rnd₂ st topic difficulty n).solveCalls
      ∧ Option.map (fun rd => rd.student_response)
            (run_interaction_round C actions alpha gamma epsilon rnd₁ st topic difficulty n).record
          = Option.map (fun rd => rd.student_response)
            (run_interaction_round C actions alpha gamma epsilon rnd₂ st topic difficulty n).record
      ∧ Option.map (fun rd => rd.problem)
            (run_interaction_round C actions alpha gamma epsilon rnd₁ st topic difficulty n).record
          = Option.map (fun rd => rd.problem)
            (run_interaction_round C actions alpha gamma epsilon rnd₂ st topic difficulty n).record
      ∧ Option.map (fun rd => rd.teacher_feedback)
            (run_interaction_round C actions alpha gamma epsilon rnd₁ st topic difficulty n).record
          = Option.map (fun rd => rd.teacher_feedback)
            (run_interaction_round C actions alpha gamma epsilon rnd₂ st topic difficulty n).record
      ∧ Option.map (fun rd => rd.reward)
            (run_interaction_round C actions alpha gamma epsilon rnd₁ st topic difficulty n).record
          = Option.map (fun rd => rd.reward)
            (run_interaction_round C actions alpha gamma epsilon rnd₂ st topic difficulty n).record
      ∧ (run_interaction_round C actions alpha gamma epsilon rnd₁ st topic difficulty n).record.isSome
          = (run_interaction_round C actions alpha gamma epsilon rnd₂ st topic difficulty n).record.isSome := by
  intro C actions alpha gamma epsilon rnd₁ rnd₂ st topic difficulty n
  unfold run_interaction_round
  cases h1 : hasError (C.generate topic difficulty) with
  | true => simp [h1]
  | false =>
    cases h2 : hasError (C.solve (C.generate topic difficulty)) with
    | true => simp [h1, h2]
    | false =>
      cases h3 : hasError (C.evaluate (C.generate topic difficulty)
          (C.solve (C.generate topic difficulty))) with
      | true => simp [h1, h2, h3]
      | false => simp [h1, h2, h3]

theorem growthPhase_synthAttempts (C : Collaborators) (cfg : SimConfig) (i : ℕ)
    (st : SimState) :
    (growthPhase C cfg i st).synthAttempts
      = if 0 < i ∧ i % (cfg.evolution_interval / 2) = 0 then st.synthAttempts ++ [i]
        else st.synthAttempts := by
  unfold growthPhase
  split <;> rfl

theorem roundPhase_synthAttempts (C : Collaborators) (cfg : SimConfig)
    (R : RandomSource) (i : ℕ) (st : SimState) :
    (roundPhase C cfg R i st).synthAttempts = st.synthAttempts := rfl

theorem evolvePhase_synthAttempts (cfg : SimConfig) (i : ℕ) (st : SimState) :
    (evolvePhase cfg i st).synthAttempts = st.synthAttempts := by
  unfold evolvePhase
  split <;> rfl

theorem simStep_synthAttempts (C : Collaborators) (cfg : SimConfig)
    (R : RandomSource) (st : SimState) (i : ℕ) :
    (simStep C cfg R st i).synthAttempts
      = if 0 < i ∧ i % (cfg.evolution_interval / 2) = 0 then st.synthAttempts ++ [i]
        else st.synthAttempts := by
  unfold simStep
  rw [evolvePhase_synthAttempts, roundPhase_synthAttempts, growthPhase_synthAttempts]

theorem foldl_simStep_synthAttempts (C : Collaborators) (cfg : SimConfig)
    (R : RandomSource) :
    ∀ (l : List ℕ) (st : SimState),
      (l.foldl (simStep C cfg R) st).synthAttempts
        = st.synthAttempts
            ++ l.filter (fun i => decide (0 < i ∧ i % (cfg.evolution_interval / 2) = 0)) := by
  intro l
  induction l with
  | nil => intro st; simp
  | cons i rest ih =>
    intro st
    simp only [List.foldl_cons, List.filter_cons]
    rw [ih, simStep_synthAttempts]
    by_cases h : 0 < i ∧ i % (cfg.evolution_interval / 2) = 0
    · simp [h, List.append_assoc]
    · simp [h]

/-- Claim C5: `run_simulation` evaluates the curriculum-growth check at every
round index and asks the teacher to synthesize a topic exactly at the indices
`i` with `i > 0` and `i % (evolution_interval / 2) = 0` (integer division);
over the configuration domain the spec admits (`evolution_interval ≥ 2`) the
modulus `evolution_interval / 2` is positive, so the Python `%` never divides
by zero, and for `evolution_interval = 2` the check fires at every round
after the first. -/
theorem C5_growth_check_schedule :
    ∀ (C : Collaborators) (cfg : SimConfig) (R : RandomSource) (topics : List String),
      2 ≤ cfg.evolution_interval →
      ((run_simulation C cfg R topics).synthAttempts
        = (List.range cfg.num_rounds).filter
            (fun i => decide (0 < i ∧ i % (cfg.evolution_interval / 2) = 0))
       ∧ 0 < cfg.evolution_interval / 2
       ∧ (cfg.evolution_interval = 2 →
           ∀ i : ℕ, 0 < i → (0 < i ∧ i % (cfg.evolution_interval / 2) = 0))) := by
  intro C cfg R topics hei
  refine ⟨?_, ?_, ?_⟩
  · unfold run_simulation
    rw [foldl_simStep_synthAttempts]
    rfl
  · exact Nat.div_pos hei (by norm_num)
  · intro h2 i hi
    refine ⟨hi, ?_⟩
    rw [h2]
    exact Nat.mod_one i

/-- Witness for C5: a concrete 4-round run with `evolution_interval = 2`;
the hypothesis `2 ≤ evolution_interval` is discharged concretely and the
synthesis trace equals the filtered schedule (namely rounds 1, 2 and 3). -/
theorem C5_growth_check_schedule_witness :
    (run_simulation okCollab cfg4 zeroRand ["T"]).synthAttempts
      = (List.range cfg4.num_rounds).filter
          (fun i => decide (0 < i ∧ i % (cfg4.evolution_interval / 2) = 0))
    ∧ (List.range cfg4.num_rounds).filter
          (fun i => decide (0 < i ∧ i % (cfg4.evolution_interval / 2) = 0))
        = [1, 2, 3] :=
  ⟨(C5_growth_check_schedule okCollab cfg4 zeroRand ["T"] (le_refl 2)).1, by decide⟩

/-- Claim C6: the evolution hook fires exactly at the round indices `i` with
`(i + 1) % evolution_interval = 0` whose (post-round) reward window is
non-empty; both collaborators then receive the window's mean and the window
is reset to empty; at all other indices the state passes through unchanged.
Concretely, a 4-round run with `evolution_interval = 2` in which every round
succeeds invokes `evolve` exactly twice on the teacher and twice on the
student. -/
theorem C6_evolution_invocation :
    (∀ (cfg : SimConfig) (i : ℕ) (st : SimState),
      ((i + 1) % cfg.evolution_interval = 0 ∧ st.rewardsHistory ≠ [] →
        evolvePhase cfg i st
          = { st with
              teacherEvolveCalls := st.teacherEvolveCalls ++ [listMean st.rewardsHistory]
              studentEvolveCalls := st.studentEvolveCalls ++ [listMean st.rewardsHistory]
              rewardsHistory := [] })
      ∧ (¬ ((i + 1) % cfg.evolution_interval = 0 ∧ st.rewardsHistory ≠ []) →
          evolvePhase cfg i st = st))
    ∧ (run_simulation okCollab cfg4 zeroRand ["T"]).teacherEvolveCalls.length = 2
    ∧ (run_simulation okCollab cfg4 zeroRand ["T"]).studentEvolveCalls.length = 2 := by
  refine ⟨fun cfg i st => ⟨fun h => ?_, fun h => ?_⟩, by decide, by decide⟩
  · unfold evolvePhase
    rw [if_pos h]
  · unfold evolvePhase
    rw [if_neg h]

/-- Witness for C6: the general evolution-trigger part applied at a concrete
state whose window is `[1]` at index `1` with interval `2`: both hypotheses
are discharged concretely and the hook appends the mean `1` to both call
traces and clears the window. -/
theorem C6_evolution_invocation_witness :
    evolvePhase cfg4 1 ⟨[], [], ["T"], [1], [], [], []⟩
      = ⟨[], [], ["T"], [], [listMean [1]], [listMean [1]], []⟩ :=
  (C6_evolution_invocation.1 cfg4 1 ⟨[], [], ["T"], [1], [], [], []⟩).1
    ⟨by decide, by decide⟩

theorem roundPhase_topics (C : Collaborators) (cfg : SimConfig)
    (R : RandomSource) (i : ℕ) (st : SimState) :
    (roundPhase C cfg R i st).topics = st.topics := rfl

theorem evolvePhase_topics (cfg : SimConfig) (i : ℕ) (st : SimState) :
    (evolvePhase cfg i st).topics = st.topics := by
  unfold evolvePhase
  split <;> rfl

theorem growthPhase_topics_invariant (C : Collaborators) (cfg : SimConfig)
    (i : ℕ) (st : SimState) (h : st.topics.Nodup) :
    (growthPhase C cfg i st).topics.Nodup
    ∧ st.topics.length ≤ (growthPhase C cfg i st).topics.length := by
  unfold growthPhase
  split
  · by_cases hc : C.synthesize (st.topics.getLastD "general knowledge") st.rewardsHistory ≠ ""
        ∧ ¬ hasError (C.synthesize (st.topics.getLastD "general knowledge") st.rewardsHistory)
        ∧ C.synthesize (st.topics.getLastD "general knowledge") st.rewardsHistory ∉ st.topics
    · simp only [if_pos hc]
      constructor
      · rw [← List.concat_eq_append]
        exact List.Nodup.concat hc.2.2 h
      · simp
    · simp only [if_neg hc]
      exact ⟨h, le_refl _⟩
  · exact ⟨h, le_refl _⟩

theorem simStep_topics_invariant (C : Collaborators) (cfg : SimConfig)
    (R : RandomSource) (st : SimState) (i : ℕ) (h : st.topics.Nodup) :
    (simStep C cfg R st i).topics.Nodup
    ∧ st.topics.length ≤ (simStep C cfg R st i).topics.length := by
  unfold simStep
  rw [evolvePhase_topics, roundPhase_topics]
  exact growthPhase_topics_invariant C cfg i st h

theorem foldl_simStep_topics_invariant (C : Collaborators) (cfg : SimConfig)
    (R : RandomSource) :
    ∀ (l : List ℕ) (st : SimState), st.topics.Nodup →
      (l.foldl (simStep C cfg R) st).topics.Nodup
      ∧ st.topics.length ≤ (l.foldl (simStep C cfg R) st).topics.length := by
  intro l
  induction l with
  | nil => intro st h; exact ⟨h, le_refl _⟩
  | cons i rest ih =>
    intro st h
    have hstep := simStep_topics_invariant C cfg R st i h
    have hrest := ih (simStep C cfg R st i) hstep.1
    exact ⟨hrest.1, le_trans hstep.2 hrest.2⟩

/-- Claim C7: throughout a simulation run the curriculum is only ever
extended by appending a synthesized topic that is non-empty, error-free and
not already present; hence from a duplicate-free initial curriculum the
topics list stays duplicate-free and its length never decreases.  Because
the statement holds for every `num_rounds`, it holds at every intermediate
point of a longer run as well. -/
theorem C7_curriculum_invariant :
    ∀ (C : Collaborators) (cfg : SimConfig) (R : RandomSource)
      (topics : List String),
      topics.Nodup →
      (run_simulation C cfg R topics).topics.Nodup
      ∧ topics.length ≤ (run_simulation C cfg R topics).topics.length := by
  intro C cfg R topics h
  unfold run_simulation
  exact foldl_simStep_topics_invariant C cfg R (List.range cfg.num_rounds)
    (initSimState topics) h

/-- Witness for C7: a concrete run from the duplicate-free curriculum
`["T"]`; the hypothesis is discharged concretely. -/
theorem C7_curriculum_invariant_witness :
    (run_simulation okCollab cfg4 zeroRand ["T"]).topics.Nodup
    ∧ (["T"] : List String).length
        ≤ (run_simulation okCollab cfg4 zeroRand ["T"]).topics.length :=
  C7_curriculum_invariant okCollab cfg4 zeroRand ["T"] (by decide)

/-- Claim C8: on an empty results sequence `get_summary_statistics` returns
the zero/empty summary; on a non-empty sequence it returns the length, the
arithmetic mean, the minimum and maximum of the recorded rewards, and a
duplicate-free list containing exactly the distinct recorded topics. -/
theorem C8_summary_statistics :
    get_summary_statistics [] = ⟨0, 0, 0, 0, []⟩
    ∧ ∀ results : List RoundData, results ≠ [] →
        (get_summary_statistics results).totalRounds = results.length
        ∧ (get_summary_statistics results).averageReward
            = (results.map (fun r => r.reward)).sum / results.length
        ∧ (get_summary_statistics results).minReward ∈ results.map (fun r => r.reward)
        ∧ (∀ r ∈ results, (get_summary_statistics results).minReward ≤ r.reward)
        ∧ (get_summary_statistics results).maxReward ∈ results.map (fun r => r.reward)
        ∧ (∀ r ∈ results, r.reward ≤ (get_summary_statistics results).maxReward)
        ∧ (∀ t : String, t ∈ (get_summary_statistics results).uniqueTopicsCovered
            ↔ t ∈ results.map (fun r => r.topic))
        ∧ (get_summary_statistics results).uniqueTopicsCovered.Nodup := by
  constructor
  · rfl
  · intro results hne
    have hmne : results.map (fun r => r.reward) ≠ [] := by
      simpa [List.map_eq_nil_iff] using hne
    unfold get_summary_statistics
    rw [if_neg hne]
    refine ⟨rfl, rfl, pymin_mem hmne, ?_, pymax_mem hmne, ?_, ?_, List.nodup_dedup _⟩
    · intro r hr
      exact pymin_le (List.mem_map_of_mem _ hr)
    · intro r hr
      exact le_pymax (List.mem_map_of_mem _ hr)
    · intro t
      exact List.mem_dedup

/-- Witness for C8: the non-empty case applied to a concrete singleton
results list; the hypothesis is discharged concretely. -/
theorem C8_summary_statistics_witness :
    (get_summary_statistics [⟨1, "t", "medium", "p", "a", "r", "f", 1⟩]).totalRounds = 1 :=
  (C8_summary_statistics.2 [⟨1, "t", "medium", "p", "a", "r", "f", 1⟩] (by decide)).1

theorem needlePref_iff (n : List Char) :
    ∀ h : List Char, needlePref n h = true ↔ ∃ t, h = n ++ t := by
  induction n with
  | nil => intro h; simp [needlePref]
  | cons a as ih =>
    intro h
    cases h with
    | nil => simp [needlePref]
    | cons b bs =>
      simp only [needlePref, Bool.and_eq_true, beq_iff_eq, ih bs]
      constructor
      · rintro ⟨rfl, t, rfl⟩
        exact ⟨t, rfl⟩
      · rintro ⟨t, ht⟩
        simp only [List.cons_append] at ht
        injection ht with h1 h2
        exact ⟨h1.symm, t, h2⟩

theorem containsSub_iff (n : List Char) :
    ∀ h : List Char, containsSub n h = true ↔ ∃ pre post, h = pre ++ n ++ post := by
  intro h
  induction h with
  | nil =>
    simp only [containsSub, needlePref_iff]
    constructor
    · rintro ⟨t, ht⟩
      rcases List.append_eq_nil.1 ht.symm with ⟨hn, htl⟩
      exact ⟨[], [], by simp [hn]⟩
    · rintro ⟨pre, post, hp⟩
      rw [List.append_assoc] at hp
      rcases List.append_eq_nil.1 hp.symm with ⟨hpre, hrest⟩
      rcases List.append_eq_nil.1 hrest with ⟨hn, hpost⟩
      exact ⟨[], by simp [hn]⟩
  | cons b bs ih =>
    simp only [containsSub, Bool.or_eq_true, needlePref_iff, ih]
    constructor
    · rintro (⟨t, ht⟩ | ⟨pre, post, hp⟩)
      · exact ⟨[], t, by simpa using ht⟩
      · exact ⟨b :: pre, post, by simp [hp]⟩
    · rintro ⟨pre, post, hp⟩
      cases pre with
      | nil => exact Or.inl ⟨post, by simpa using hp⟩
      | cons c cs =>
        simp only [List.cons_append, List.append_assoc] at hp
        injection hp with h1 h2
        exact Or.inr ⟨cs, post, by simp [h2, List.append_assoc]⟩

/-- Claim C10: the failure test the environment applies to every
collaborator text is the case-sensitive substring check `"Error" in text`:
it holds exactly when the five characters `Error` occur contiguously in the
text.  A benign success text containing `Error` (e.g. inside `Errors`)
aborts the round, a lowercase `error` text passes as success, and a
synthesized topic containing `Error` is discarded while an error-free fresh
topic is appended. -/
theorem C10_error_marker_case_sensitive :
    (∀ t : String, hasError t = true ↔ ∃ pre post : List Char,
        t.data = pre ++ "Error".data ++ post)
    ∧ hasError "No Errors were found, great job!" = true
    ∧ hasError "error: something failed" = false
    ∧ (run_interaction_round
          ⟨fun _ _ => "No Errors were found! Here is a problem.", fun _ => "sol",
            fun _ _ => "good", fun _ _ => ""⟩
          ["a"] 0 0 1 ⟨0, 0, 0⟩ ⟨[], []⟩ "T" "medium" 1).record = none
    ∧ (run_interaction_round
          ⟨fun _ _ => "problem", fun _ => "error: crashed", fun _ _ => "good",
            fun _ _ => ""⟩
          ["a"] 0 0 1 ⟨0, 0, 0⟩ ⟨[], []⟩ "T" "medium" 1).record.isSome = true
    ∧ (growthPhase
          ⟨fun _ _ => "p", fun _ => "s", fun _ _ => "e",
            fun _ _ => "New topic (Error in title)"⟩
          cfg4 2 (initSimState ["T"])).topics = ["T"]
    ∧ (growthPhase
          ⟨fun _ _ => "p", fun _ => "s", fun _ _ => "e", fun _ _ => "fresh topic"⟩
          cfg4 2 (initSimState ["T"])).topics = ["T", "fresh topic"] := by
  refine ⟨fun t => ?_, by decide, by decide, by decide, by decide, by decide, by decide⟩
  simp only [hasError, pyContains]
  exact containsSub_iff _ _
